import Mathlib

/-!
Verification development for the copick-server HTTP route handler.

The embedding models `CopickRoute.handle_request` and its three kind-specific
handlers (`_handle_tomogram`, `_handle_picks`, `_handle_segmentation`) from
`src/copick_server/server.py`, together with the binary segmentation frame
produced by `create_empty_segmentation` in `src/copick_server/client.py`.

Modelling conventions:
* Python strings are `List Char`; `str.split`, `str.join`, `str.replace` and
  the `in` substring test are re-implemented below with Python semantics
  (`replace` replaces every non-overlapping occurrence, left to right).
* Python floats are modelled exactly, as `PyFloat` (a rational, or one of the
  IEEE specials `inf`/`-inf`/`nan`).  IEEE rounding, overflow of huge decimal
  literals to infinity, and non-ASCII digits are not modelled; no claim
  depends on them.
* Bytes are `Fin 256`; a request or response body is a `List Byte`.
* External collaborators (the run catalog, zarr chunk stores, the picks and
  segmentation persistence helpers) are opaque function-valued fields of the
  environment structures, exactly at the call boundaries visible in the
  source.  Every call a handler makes to a collaborator is recorded in an
  effect trace, so that "no store operation was invoked" and "the collaborator
  was invoked with exactly these arguments" are stateable.
* The single exception that escapes a handler uncaught — the bare
  `float(seg_parts[0])` on line 137 of `server.py` — is modelled by
  `_handle_segmentation` returning `none`; the router's catch-all turns it
  into a 500 response, as on lines 46-48.
-/

namespace Copick

/-! ## Python string primitives -/

/-- Python `s.split(sep)` for a one-character separator: non-collapsing,
`"".split(sep) == [""]`, and a trailing separator yields a trailing `""`. -/
def pySplit (sep : Char) : List Char → List (List Char)
  | [] => [[]]
  | c :: cs =>
    if c = sep then [] :: pySplit sep cs
    else
      match pySplit sep cs with
      | [] => [[c]]
      | t :: ts => (c :: t) :: ts

/-- Python `sep.join(parts)` for a one-character separator. -/
def pyJoin (sep : Char) : List (List Char) → List Char
  | [] => []
  | [x] => x
  | x :: y :: ys => x ++ sep :: pyJoin sep (y :: ys)

/-- Boolean prefix test on character lists. -/
def isPre : List Char → List Char → Bool
  | [], _ => true
  | _ :: _, [] => false
  | a :: as, b :: bs => decide (a = b) && isPre as bs

/-- Python `pat in s` (substring containment). -/
def containsSub (pat : List Char) : List Char → Bool
  | [] => pat.isEmpty
  | s@(_ :: cs) => isPre pat s || containsSub pat cs

/-- Recursion core of `replaceAll`.  The fuel argument only bounds the
recursion depth (each step strictly shortens the list, so `s.length` fuel is
always enough); it keeps the definition structurally recursive. -/
def replaceAllAux (pat rep : List Char) : ℕ → List Char → List Char
  | 0, s => s
  | _ + 1, [] => []
  | fuel + 1, c :: cs =>
    if pat ≠ [] ∧ isPre pat (c :: cs) then
      rep ++ replaceAllAux pat rep fuel ((c :: cs).drop pat.length)
    else c :: replaceAllAux pat rep fuel cs

/-- Python `s.replace(pat, rep)`: replace every non-overlapping occurrence of
`pat`, scanning left to right.  (The source only ever calls it with a
non-empty `pat`; for `pat = []` this model returns `s` unchanged.) -/
def replaceAll (pat rep s : List Char) : List Char :=
  replaceAllAux pat rep s.length s

/-! ## Python float literals -/

/-- Value of a Python `float(...)` call: an exact rational, or a special. -/
inductive PyFloat where
  | finite (q : ℚ)
  | inf
  | ninf
  | nan
deriving DecidableEq

/-- Whitespace characters stripped by Python `float(str)`. -/
def isWsChar (c : Char) : Bool :=
  c = ' ' || c = '\t' || c = '\n' || c = '\r' || c = '\x0b' || c = '\x0c'

/-- Strip leading and trailing whitespace. -/
def stripWs (s : List Char) : List Char :=
  ((s.dropWhile isWsChar).reverse.dropWhile isWsChar).reverse

/-- Numeric value of an ASCII digit. -/
def digitVal (c : Char) : ℕ := c.toNat - 48

/-- Consume a maximal run of digits with PEP-515 underscores (an underscore is
consumed only when flanked by digits on both sides); accumulates the value and
the digit count. -/
def digitsLoop : ℕ → ℕ → List Char → ℕ × ℕ × List Char
  | acc, n, [] => (acc, n, [])
  | acc, n, c :: cs =>
    if c.isDigit then digitsLoop (acc * 10 + digitVal c) (n + 1) cs
    else if c = '_' then
      match cs with
      | d :: ds => if d.isDigit then digitsLoop (acc * 10 + digitVal d) (n + 1) ds
                   else (acc, n, c :: cs)
      | [] => (acc, n, c :: cs)
    else (acc, n, c :: cs)

/-- Parse a digit run that must start with a digit; `none` otherwise. -/
def parseDigits : List Char → Option (ℕ × ℕ × List Char)
  | [] => none
  | c :: cs => if c.isDigit then some (digitsLoop (digitVal c) 1 cs) else none

/-- Parse the (sign-stripped) numeric part of a Python float literal:
`[digits][.digits][(e|E)[sign]digits]`, at least one mantissa digit, whole
input consumed.  The exact value is returned as a numerator together with a
power-of-ten denominator exponent, so that the caller can form the rational
`num / 10 ^ denExp` in one step. -/
def parseNumber (s : List Char) : Option (ℕ × ℕ) :=
  let ti := match parseDigits s with
    | some t => t
    | none => (0, 0, s)
  let tf := match ti.2.2 with
    | '.' :: r =>
      (match parseDigits r with
       | some t => t
       | none => ((0 : ℕ), (0 : ℕ), r))
    | _ => (0, 0, ti.2.2)
  if ti.2.1 + tf.2.1 = 0 then none
  else
    let mnum := ti.1 * 10 ^ tf.2.1 + tf.1
    match tf.2.2 with
    | [] => some (mnum, tf.2.1)
    | e :: r3 =>
      if e = 'e' ∨ e = 'E' then
        let se : Bool × List Char := match r3 with
          | '+' :: r => (false, r)
          | '-' :: r => (true, r)
          | _ => (false, r3)
        match parseDigits se.2 with
        | some (ev, _, r5) =>
          if r5 = [] then
            some (if se.1 then (mnum, tf.2.1 + ev) else (mnum * 10 ^ ev, tf.2.1))
          else none
        | none => none
      else none

/-- Python `float(str)`: strip whitespace, optional sign, then either one of
the specials `inf`/`infinity`/`nan` (case-insensitive) or a numeric literal
whose exact value is `± num / 10 ^ denExp`.  `none` models the `ValueError`
raised on anything else. -/
def pyFloat? (s : List Char) : Option PyFloat :=
  let t := stripWs s
  let st : Bool × List Char := match t with
    | '+' :: r => (false, r)
    | '-' :: r => (true, r)
    | _ => (false, t)
  let low := st.2.map Char.toLower
  if low = ("inf").toList ∨ low = ("infinity").toList then
    some (if st.1 then PyFloat.ninf else PyFloat.inf)
  else if low = ("nan").toList then some PyFloat.nan
  else
    match parseNumber st.2 with
    | some nd =>
      some (PyFloat.finite (mkRat (if st.1 then -(nd.1 : ℤ) else (nd.1 : ℤ)) (10 ^ nd.2)))
    | none => none

/-! ## Bytes and the binary segmentation frame

`_handle_segmentation` (server.py lines 147-153) decodes a PUT body as
`shape = np.frombuffer(blob[:24], dtype=np.int64)` followed by
`np.frombuffer(blob[24:], dtype=np.uint8).reshape(shape)`;
`create_empty_segmentation` (client.py lines 48-49) encodes
`np.array(shape, dtype=np.int64).tobytes() + data.tobytes()`. -/

abbrev Byte := Fin 256

/-- The eight little-endian bytes of `n % 2 ^ 64`. -/
def toLE8 (n : ℕ) : List Byte :=
  [⟨n % 256, Nat.mod_lt _ (by norm_num)⟩,
   ⟨n / 256 % 256, Nat.mod_lt _ (by norm_num)⟩,
   ⟨n / 65536 % 256, Nat.mod_lt _ (by norm_num)⟩,
   ⟨n / 16777216 % 256, Nat.mod_lt _ (by norm_num)⟩,
   ⟨n / 4294967296 % 256, Nat.mod_lt _ (by norm_num)⟩,
   ⟨n / 1099511627776 % 256, Nat.mod_lt _ (by norm_num)⟩,
   ⟨n / 281474976710656 % 256, Nat.mod_lt _ (by norm_num)⟩,
   ⟨n / 72057594037927936 % 256, Nat.mod_lt _ (by norm_num)⟩]

/-- Little-endian value of a byte list (first byte least significant). -/
def leNat : List Byte → ℕ
  | [] => 0
  | b :: bs => b.val + 256 * leNat bs

/-- Signed (two's-complement) `int64` read of an 8-byte little-endian group,
as `np.frombuffer(-, dtype=np.int64)` performs on a little-endian host. -/
def int64OfBytes (bs : List Byte) : ℤ :=
  if leNat bs < 2 ^ 63 then (leNat bs : ℤ) else (leNat bs : ℤ) - 2 ^ 64

/-- `np.int64(d).tobytes()`: the two's-complement little-endian encoding. -/
def int64ToLE (d : ℤ) : List Byte := toLE8 (d % (2 ^ 64 : ℤ)).toNat

/-- Split a byte list into consecutive `int64` values, eight bytes each
(any leftover group of fewer than eight bytes cannot arise under the
multiple-of-eight guard of `decodeFrame`). -/
def bytesToInt64List : List Byte → List ℤ
  | b0 :: b1 :: b2 :: b3 :: b4 :: b5 :: b6 :: b7 :: rest =>
    int64OfBytes [b0, b1, b2, b3, b4, b5, b6, b7] :: bytesToInt64List rest
  | _ => []

/-- `np.ndarray.reshape` dimension resolution (numpy `_fix_unknown_dimension`):
at most one negative entry, which acts as an unknown to be inferred; with an
unknown present the product of the known dims must be non-zero and divide the
array size; with no unknown the product must equal the size. -/
def resolveShape (shape : List ℤ) (size : ℕ) : Option (List ℤ) :=
  let negs := (shape.filter fun d => decide (d < 0)).length
  if 2 ≤ negs then none
  else if negs = 1 then
    let known := (shape.filter fun d => decide (0 ≤ d)).prod
    if known = 0 then none
    else if (size : ℤ) % known = 0 then
      some (shape.map fun d => if d < 0 then (size : ℤ) / known else d)
    else none
  else if shape.prod = (size : ℤ) then some shape else none

/-- Decode of a segmentation PUT body (server.py lines 150-153): the first
(up to) 24 bytes are read as `int64` values — `np.frombuffer` requires the
slice length to be a multiple of eight — and the remainder must reshape to
the resulting dimension list.  `none` models the exception caught on
line 170. -/
def decodeFrame (blob : List Byte) : Option (List ℤ × List Byte) :=
  let hdr := blob.take 24
  if hdr.length % 8 = 0 then
    match resolveShape (bytesToInt64List hdr) (blob.drop 24).length with
    | some s => some (s, blob.drop 24)
    | none => none
  else none

/-- Client-side frame encoding (client.py lines 48-49) for a 3-D array. -/
def encodeFrame3 (d0 d1 d2 : ℤ) (data : List Byte) : List Byte :=
  int64ToLE d0 ++ int64ToLE d1 ++ int64ToLE d2 ++ data

/-! ## The HTTP model -/

/-- The three methods the catch-all route accepts (server.py line 215). -/
inductive Method where
  | GET
  | HEAD
  | PUT
deriving DecidableEq

/-- An HTTP response: a status code and an optional body. -/
structure Response where
  status : ℕ
  body : Option (List Byte)
deriving DecidableEq

def resp404 : Response := { status := 404, body := none }

def resp500 : Response := { status := 500, body := none }

/-- Every call a handler makes to an external collaborator, with the exact
arguments passed, in source order of the call sites. -/
inductive Effect where
  | getVoxelSpacing (v : PyFloat)
  | getTomogram (ttype : List Char)
  | tomoRead (key : List Char)
  | tomoWrite (key : List Char) (val : List Byte)
  | newPicks (obj user session : List Char)
  | picksStore
  | getPicks (obj user session : List Char)
  | getSegmentations (v : PyFloat) (name user session : List Char) (ml : Bool)
  | segRead (key : List Char)
  | writeSegmentation (user name session : List Char) (v : PyFloat) (ml : Bool)
      (shape : List ℤ) (data : List Byte)
deriving DecidableEq

/-- Effects that mutate the backing store. -/
def Effect.isWrite : Effect → Bool
  | .tomoWrite _ _ => true
  | .picksStore => true
  | .writeSegmentation _ _ _ _ _ _ _ => true
  | _ => false

/-! ## Collaborator environments

Opaque models of the copick catalog objects the handlers call into. -/

/-- A tomogram handle: its `read_only` flag, its zarr chunk store (`none`
models the `KeyError` on a missing key), and whether a chunk write succeeds
(`false` models the exception caught on server.py line 79). -/
structure Tomogram where
  read_only : Bool
  zarr : List Char → Option (List Byte)
  write_ok : List Char → List Byte → Bool

/-- A voxel-spacing entry of a run. -/
structure VoxelSpacing where
  get_tomogram : List Char → Option Tomogram

/-- The picks collaborators of a run.  `new_picks_ok`, `json_ok` and
`store_ok` model whether `run.new_picks(...)`, the JSON body parse plus
`CopickPicksFile(**data)` validation, and `picks.store()` succeed; a stored
pick set is abstracted to its serialized JSON form
(`json.dumps(picks[0].meta.dict())`). -/
structure PicksEnv where
  new_picks_ok : List Char → List Char → List Char → Bool
  json_ok : List Byte → Bool
  store_ok : List Char → List Char → List Char → List Byte → Bool
  get_picks : List Char → List Char → List Char → List (List Byte)

/-- The segmentation collaborators of a run: `get_segmentations` returns the
zarr chunk stores of the matching segmentations; `write_ok` models whether
the external `copick_utils` `segmentation(...)` persistence call succeeds. -/
structure SegEnv where
  get_segmentations : PyFloat → List Char → List Char → List Char → Bool →
    List (List Char → Option (List Byte))
  write_ok : List Char → List Char → List Char → PyFloat → Bool →
    List ℤ → List Byte → Bool

/-- A run resolved from the catalog. -/
structure Run where
  get_voxel_spacing : PyFloat → Option VoxelSpacing
  picks : PicksEnv
  seg : SegEnv

/-! ## The route handlers -/

/-- Result of parsing a tomogram sub-path (server.py lines 52-62): the parsed
voxel spacing, the tomogram type (`parts[1].replace(".zarr", "")`) and the
chunk key (`"/".join(parts[2:])`).  `none` covers fewer than two segments and
the caught `ValueError` of `float(vs_str)`, both answered with 404. -/
def parseTomoPath (sub : List Char) : Option (PyFloat × List Char × List Char) :=
  match pySplit '/' sub with
  | p0 :: p1 :: rest =>
    match pyFloat? (replaceAll ("VoxelSpacing").toList [] p0) with
    | some v => some (v, replaceAll (".zarr").toList [] p1, pyJoin '/' rest)
    | none => none
  | _ => none

/-- `CopickRoute._handle_tomogram` (server.py lines 50-88). -/
def handleTomogram (m : Method) (run : Run) (sub : List Char) (body : List Byte) :
    Response × List Effect :=
  match parseTomoPath sub with
  | none => (resp404, [])
  | some (v, ttype, key) =>
    match run.get_voxel_spacing v with
    | none => (resp404, [.getVoxelSpacing v])
    | some vs =>
      match vs.get_tomogram ttype with
      | none => (resp404, [.getVoxelSpacing v, .getTomogram ttype])
      | some t =>
        if m = Method.PUT ∧ t.read_only = false then
          ((if t.write_ok key body then { status := 200, body := none } else resp500),
           [.getVoxelSpacing v, .getTomogram ttype, .tomoWrite key body])
        else
          match t.zarr key with
          | some b =>
            ({ status := 200, body := if m = Method.HEAD then none else some b },
             [.getVoxelSpacing v, .getTomogram ttype, .tomoRead key])
          | none => (resp404, [.getVoxelSpacing v, .getTomogram ttype, .tomoRead key])

/-- Result of parsing a picks sub-path (server.py lines 92-102): the filename
`parts[0]` must split on `_` into exactly three fields
`(user_id, session_id, object_name)`, and `.json` is then stripped from the
object name.  `none` is answered with 404. -/
def parsePicksPath (sub : List Char) : Option (List Char × List Char × List Char) :=
  match pySplit '/' sub with
  | p0 :: _ =>
    match pySplit '_' p0 with
    | [u, s, o] => some (u, s, replaceAll (".json").toList [] o)
    | _ => none
  | [] => none

/-- `CopickRoute._handle_picks` (server.py lines 90-124). -/
def handlePicks (m : Method) (run : Run) (sub : List Char) (body : List Byte) :
    Response × List Effect :=
  match parsePicksPath sub with
  | none => (resp404, [])
  | some (u, s, o) =>
    if m = Method.PUT then
      if run.picks.new_picks_ok o u s then
        if run.picks.json_ok body then
          ((if run.picks.store_ok o u s body then { status := 200, body := none } else resp500),
           [.newPicks o u s, .picksStore])
        else (resp500, [.newPicks o u s])
      else (resp500, [.newPicks o u s])
    else
      match run.picks.get_picks o u s with
      | [] => (resp404, [.getPicks o u s])
      | ser :: _ =>
        if m = Method.HEAD then ({ status := 200, body := none }, [.getPicks o u s])
        else ({ status := 200, body := some ser }, [.getPicks o u s])

/-- Parameters of a segmentation request (server.py lines 128-141). -/
structure SegParams where
  v : PyFloat
  userId : List Char
  sessionId : List Char
  name : List Char
  key : List Char
deriving DecidableEq

/-- Result of parsing a segmentation sub-path. -/
inductive SegParse where
  | notFound
  | exn
  | ok (p : SegParams)
deriving DecidableEq

/-- Parse a segmentation sub-path (server.py lines 128-140): strip `.zarr`
from `parts[0]`, split on `_`, require at least four fields (else 404), and
parse field 0 as a float — a parse failure there is the uncaught `ValueError`
of line 137, modelled as `SegParse.exn`. -/
def parseSegPath (sub : List Char) : SegParse :=
  match pySplit '/' sub with
  | p0 :: rest =>
    match pySplit '_' (replaceAll (".zarr").toList [] p0) with
    | f0 :: f1 :: f2 :: f3 :: fs =>
      match pyFloat? f0 with
      | some v => .ok ⟨v, f1, f2, pyJoin '_' (f3 :: fs), pyJoin '/' rest⟩
      | none => .exn
    | _ => .notFound
  | [] => .notFound

/-- `CopickRoute._handle_segmentation` (server.py lines 126-191); the outer
`none` is the uncaught float `ValueError` propagating out of the handler. -/
def handleSegmentation (m : Method) (run : Run) (sub : List Char) (body : List Byte) :
    Option (Response × List Effect) :=
  match parseSegPath sub with
  | .notFound => some (resp404, [])
  | .exn => none
  | .ok p =>
    let ml := containsSub ("multilabel").toList p.name
    let cname := replaceAll ("-multilabel").toList [] p.name
    if m = Method.PUT then
      match decodeFrame body with
      | none => some (resp500, [])
      | some (shape, data) =>
        some ((if run.seg.write_ok p.userId cname p.sessionId p.v ml shape data
               then { status := 200, body := none } else resp500),
              [.writeSegmentation p.userId cname p.sessionId p.v ml shape data])
    else
      match run.seg.get_segmentations p.v cname p.userId p.sessionId ml with
      | [] => some (resp404, [.getSegmentations p.v cname p.userId p.sessionId ml])
      | st :: _ =>
        match st p.key with
        | some b =>
          some ({ status := 200, body := if m = Method.HEAD then none else some b },
                [.getSegmentations p.v cname p.userId p.sessionId ml, .segRead p.key])
        | none =>
          some (resp404, [.getSegmentations p.v cname p.userId p.sessionId ml, .segRead p.key])

/-- The router's view of the segmentation handler: its uncaught exception is
converted to a 500 by the catch-all of `handle_request` (lines 46-48). -/
def routeSeg (m : Method) (run : Run) (sub : List Char) (body : List Byte) :
    Response × List Effect :=
  match handleSegmentation m run sub body with
  | some r => r
  | none => (resp500, [])

/-- `CopickRoute.handle_request` (server.py lines 22-48): split the path,
require at least three segments, resolve the run (absent run means 404),
dispatch on the kind literal, anything else 404. -/
def handleRequest (root : List Char → Option Run) (m : Method) (path : List Char)
    (body : List Byte) : Response × List Effect :=
  match pySplit '/' path with
  | runName :: dataType :: r0 :: rs =>
    match root runName with
    | none => (resp404, [])
    | some run =>
      let sub := pyJoin '/' (r0 :: rs)
      if dataType = ("Tomograms").toList then handleTomogram m run sub body
      else if dataType = ("Picks").toList then handlePicks m run sub body
      else if dataType = ("Segmentations").toList then routeSeg m run sub body
      else (resp404, [])
  | _ => (resp404, [])

/-- Suffix stripping as the specification words it (for comparison with the
source's `str.replace`): remove `pat` from the end of `s` when present. -/
def stripSuffixSpec (pat s : List Char) : List Char :=
  if pat.reverse.isPrefixOf s.reverse then s.take (s.length - pat.length) else s

/-! ## Frame codec lemmas -/

lemma toLE8_length (n : ℕ) : (toLE8 n).length = 8 := rfl

lemma int64ToLE_length (d : ℤ) : (int64ToLE d).length = 8 := rfl

lemma leNat_toLE8 (n : ℕ) (h : n < 18446744073709551616) : leNat (toLE8 n) = n := by
  simp only [toLE8, leNat]
  omega

lemma int64OfBytes_int64ToLE (d : ℤ) (h0 : 0 ≤ d) (h1 : d < 2 ^ 63) :
    int64OfBytes (int64ToLE d) = d := by
  have hlt : d < 2 ^ 64 := lt_trans h1 (by norm_num)
  have hmod : d % (2 ^ 64 : ℤ) = d := Int.emod_eq_of_lt h0 hlt
  have hn : (d % (2 ^ 64 : ℤ)).toNat = d.toNat := by rw [hmod]
  have hnlt : d.toNat < 18446744073709551616 := by omega
  have hle : leNat (toLE8 d.toNat) = d.toNat := leNat_toLE8 _ hnlt
  have hn63 : d.toNat < 2 ^ 63 := by omega
  simp only [int64ToLE, int64OfBytes, hn, hle]
  rw [if_pos (by exact_mod_cast hn63)]
  omega

lemma bytesToInt64List_append8 (a rest : List Byte) (ha : a.length = 8) :
    bytesToInt64List (a ++ rest) = int64OfBytes a :: bytesToInt64List rest := by
  match a, ha with
  | [a0, a1, a2, a3, a4, a5, a6, a7], _ => rfl

/-- Claim C1. For every byte array of shape `(d0, d1, d2)` — dimensions
`int64`-representable and non-negative, data of length `d0 * d1 * d2` —
decoding the frame produced by encoding it yields the identical shape and
the identical bytes. -/
theorem frame_roundtrip (d0 d1 d2 : ℤ) (data : List Byte)
    (h0 : 0 ≤ d0) (h0' : d0 < 2 ^ 63)
    (h1 : 0 ≤ d1) (h1' : d1 < 2 ^ 63)
    (h2 : 0 ≤ d2) (h2' : d2 < 2 ^ 63)
    (hlen : (data.length : ℤ) = d0 * d1 * d2) :
    decodeFrame (encodeFrame3 d0 d1 d2 data) = some ([d0, d1, d2], data) := by
  have hassoc : encodeFrame3 d0 d1 d2 data =
      (int64ToLE d0 ++ int64ToLE d1 ++ int64ToLE d2) ++ data := by
    simp [encodeFrame3, List.append_assoc]
  have hhlen : (int64ToLE d0 ++ int64ToLE d1 ++ int64ToLE d2).length = 24 := by
    simp [int64ToLE_length]
  have htake : (encodeFrame3 d0 d1 d2 data).take 24 =
      int64ToLE d0 ++ int64ToLE d1 ++ int64ToLE d2 := by
    rw [hassoc, List.take_left' hhlen]
  have hdrop : (encodeFrame3 d0 d1 d2 data).drop 24 = data := by
    rw [hassoc, List.drop_left' hhlen]
  have hshape : bytesToInt64List (int64ToLE d0 ++ int64ToLE d1 ++ int64ToLE d2) =
      [d0, d1, d2] := by
    rw [List.append_assoc, bytesToInt64List_append8 _ _ (int64ToLE_length d0),
      bytesToInt64List_append8 _ _ (int64ToLE_length d1)]
    have : bytesToInt64List (int64ToLE d2) = [int64OfBytes (int64ToLE d2)] := by
      rw [show int64ToLE d2 = int64ToLE d2 ++ [] by simp,
        bytesToInt64List_append8 _ _ (int64ToLE_length d2)]
      rfl
    rw [this, int64OfBytes_int64ToLE d0 h0 h0', int64OfBytes_int64ToLE d1 h1 h1',
      int64OfBytes_int64ToLE d2 h2 h2']
  have hres : resolveShape [d0, d1, d2] data.length = some [d0, d1, d2] := by
    have hf : ([d0, d1, d2].filter fun d => decide (d < 0)) = [] := by
      simp [List.filter, decide_eq_false (not_lt.mpr h0), decide_eq_false (not_lt.mpr h1),
        decide_eq_false (not_lt.mpr h2)]
    have hprod : ([d0, d1, d2] : List ℤ).prod = (data.length : ℤ) := by
      simp only [List.prod_cons, List.prod_nil, hlen]
      ring
    simp only [resolveShape, hf, List.length_nil]
    rw [if_neg (by norm_num), if_neg (by norm_num), if_pos hprod]
  unfold decodeFrame
  dsimp only
  rw [htake, hdrop, hhlen]
  norm_num
  rw [show int64ToLE d0 ++ (int64ToLE d1 ++ int64ToLE d2) =
      int64ToLE d0 ++ int64ToLE d1 ++ int64ToLE d2 from (List.append_assoc _ _ _).symm,
    hshape, hres]

/-- Witness for C1 at a concrete array of shape `(1, 1, 2)`. -/
theorem frame_roundtrip_witness :
    decodeFrame (encodeFrame3 1 1 2 [⟨5, by norm_num⟩, ⟨9, by norm_num⟩]) =
      some ([1, 1, 2], [⟨5, by norm_num⟩, ⟨9, by norm_num⟩]) :=
  frame_roundtrip 1 1 2 _ (by norm_num) (by norm_num) (by norm_num) (by norm_num)
    (by norm_num) (by norm_num) (by norm_num)

/-! ## Concrete environments used by witnesses and counterexamples -/

/-- A run whose persistence collaborators all succeed and whose catalogs are
empty. -/
def runAllOk : Run :=
  { get_voxel_spacing := fun _ => none,
    picks := { new_picks_ok := fun _ _ _ => true, json_ok := fun _ => true,
               store_ok := fun _ _ _ _ => true, get_picks := fun _ _ _ => [] },
    seg := { get_segmentations := fun _ _ _ _ _ => [],
             write_ok := fun _ _ _ _ _ _ _ => true } }

/-- A run holding one voxel spacing whose tomogram catalog is empty. -/
def runVsOnly : Run :=
  { runAllOk with get_voxel_spacing := fun _ => some { get_tomogram := fun _ => none } }

/-! ## Claim C2 -/

/-- Counterexample to claim C2 as stated: a segmentation PUT body of only
8 zero bytes — in particular shorter than 24 bytes — does NOT fail to
decode: `np.frombuffer` reads the single declared dimension `0`, and
reshaping the empty remainder to `(0,)` succeeds, so the request is answered
200 and the persistence collaborator is invoked, not 500. -/
theorem short_body_decode_success_cex :
    decodeFrame (List.replicate 8 (0 : Byte)) = some ([0], []) ∧
    handleSegmentation Method.PUT runAllOk ("10.0_a_s_n.zarr").toList
        (List.replicate 8 (0 : Byte)) =
      some ({ status := 200, body := none },
        [Effect.writeSegmentation ("a").toList ("n").toList ("s").toList
          (PyFloat.finite 10) false [0] []]) := by
  constructor
  · decide
  · decide

/-- Claim C2 as amended.  For every segmentation PUT reaching the decode step
whose body is at least 24 bytes long and declares three non-negative
dimensions, a body length different from `24 + d0 * d1 * d2` makes the decode
fail and the response status 500.  Below 24 bytes the decode fails whenever
the body length is not a multiple of 8; lengths 8 and 16 can decode
successfully when the declared dimensions resolve a zero-length payload, so
the unqualified `length < 24` sentence of the claim does not hold. -/
theorem seg_put_length_mismatch_500 (run : Run) (sub : List Char) (p : SegParams)
    (hp : parseSegPath sub = SegParse.ok p)
    (blob : List Byte) (d0 d1 d2 : ℤ)
    (h24 : 24 ≤ blob.length)
    (hd : bytesToInt64List (blob.take 24) = [d0, d1, d2])
    (h0 : 0 ≤ d0) (h1 : 0 ≤ d1) (h2 : 0 ≤ d2)
    (hlen : (blob.length : ℤ) ≠ 24 + d0 * d1 * d2) :
    decodeFrame blob = none ∧
    handleSegmentation Method.PUT run sub blob = some (resp500, []) ∧
    (∀ b : List Byte, b.length < 24 → b.length % 8 ≠ 0 → decodeFrame b = none) := by
  have htl : (blob.take 24).length = 24 := by
    rw [List.length_take]
    omega
  have hf : ([d0, d1, d2].filter fun d => decide (d < 0)) = [] := by
    simp [List.filter, decide_eq_false (not_lt.mpr h0), decide_eq_false (not_lt.mpr h1),
      decide_eq_false (not_lt.mpr h2)]
  have hprod : ¬ (([d0, d1, d2] : List ℤ).prod = ((blob.length - 24 : ℕ) : ℤ)) := by
    simp only [List.prod_cons, List.prod_nil, Nat.cast_sub h24]
    intro hE
    apply hlen
    ring_nf at hE
    linarith
  have hres : resolveShape [d0, d1, d2] (blob.length - 24) = none := by
    simp only [resolveShape, hf, List.length_nil]
    rw [if_neg (by norm_num), if_neg (by norm_num), if_neg hprod]
  have hdec : decodeFrame blob = none := by
    unfold decodeFrame
    dsimp only
    rw [htl]
    norm_num
    rw [hd, hres]
  refine ⟨hdec, ?_, ?_⟩
  · unfold handleSegmentation
    rw [hp]
    dsimp only
    rw [if_pos rfl, hdec]
  · intro b hb hb8
    unfold decodeFrame
    dsimp only
    rw [List.take_of_length_le (le_of_lt hb)]
    rw [if_neg hb8]

/-- Witness for the amended C2: a 25-byte all-zero body declares shape
`(0, 0, 0)` but carries one payload byte, so it fails to decode and the PUT
is answered 500; and a 7-byte body fails to decode. -/
theorem seg_put_length_mismatch_500_witness :
    decodeFrame (List.replicate 25 (0 : Byte)) = none ∧
    handleSegmentation Method.PUT runAllOk ("10.0_a_s_n.zarr").toList
        (List.replicate 25 (0 : Byte)) = some (resp500, []) ∧
    decodeFrame (List.replicate 7 (0 : Byte)) = none := by
  have h := seg_put_length_mismatch_500 runAllOk ("10.0_a_s_n.zarr").toList
    ⟨PyFloat.finite 10, ("a").toList, ("s").toList, ("n").toList, []⟩ (by decide)
    (List.replicate 25 (0 : Byte)) 0 0 0 (by decide) (by decide)
    (by decide) (by decide) (by decide) (by decide)
  exact ⟨h.1, h.2.1, h.2.2 (List.replicate 7 (0 : Byte)) (by decide) (by decide)⟩

/-! ## Claim C3 -/

/-- Claim C3.  A PUT addressing an existing tomogram whose `read_only` flag
is true performs no write: the handler behaves exactly as a GET would —
200 with the stored chunk bytes when the chunk key exists, 404 when it does
not — and no write effect is issued against the chunk store. -/
theorem readonly_put_reads (run : Run) (sub : List Char) (body : List Byte)
    (v : PyFloat) (ttype key : List Char)
    (hp : parseTomoPath sub = some (v, ttype, key))
    (vs : VoxelSpacing) (hvs : run.get_voxel_spacing v = some vs)
    (t : Tomogram) (ht : vs.get_tomogram ttype = some t)
    (hro : t.read_only = true) :
    handleTomogram Method.PUT run sub body = handleTomogram Method.GET run sub body ∧
    (handleTomogram Method.PUT run sub body).2.all (fun e => ! e.isWrite) = true ∧
    (∀ b, t.zarr key = some b →
      (handleTomogram Method.PUT run sub body).1 = { status := 200, body := some b }) ∧
    (t.zarr key = none → (handleTomogram Method.PUT run sub body).1 = resp404) := by
  have hput : ¬ (Method.PUT = Method.PUT ∧ t.read_only = false) := by simp [hro]
  have hget : ¬ (Method.GET = Method.PUT ∧ t.read_only = false) := by simp
  have hPUT : handleTomogram Method.PUT run sub body =
      (match t.zarr key with
       | some b => ({ status := 200, body := some b },
          [Effect.getVoxelSpacing v, Effect.getTomogram ttype, Effect.tomoRead key])
       | none => (resp404,
          [Effect.getVoxelSpacing v, Effect.getTomogram ttype, Effect.tomoRead key])) := by
    unfold handleTomogram
    rw [hp]
    dsimp only
    rw [hvs]
    dsimp only
    rw [ht]
    dsimp only
    rw [if_neg hput]
    cases t.zarr key <;> simp
  have hGET : handleTomogram Method.GET run sub body =
      (match t.zarr key with
       | some b => ({ status := 200, body := some b },
          [Effect.getVoxelSpacing v, Effect.getTomogram ttype, Effect.tomoRead key])
       | none => (resp404,
          [Effect.getVoxelSpacing v, Effect.getTomogram ttype, Effect.tomoRead key])) := by
    unfold handleTomogram
    rw [hp]
    dsimp only
    rw [hvs]
    dsimp only
    rw [ht]
    dsimp only
    rw [if_neg hget]
    cases t.zarr key <;> simp
  refine ⟨by rw [hPUT, hGET], ?_, ?_, ?_⟩
  · rw [hPUT]
    cases hz : t.zarr key <;> rfl
  · intro b hb
    rw [hPUT, hb]
  · intro hb
    rw [hPUT, hb]

/-- A read-only tomogram holding one chunk at key `0`. -/
def tomoRO : Tomogram :=
  { read_only := true,
    zarr := fun k => if k = ("0").toList then some [⟨7, by norm_num⟩] else none,
    write_ok := fun _ _ => true }

/-- A run resolving every voxel spacing, every tomogram type to `tomoRO`. -/
def runRO : Run :=
  { runAllOk with
    get_voxel_spacing := fun _ => some { get_tomogram := fun _ => some tomoRO } }

/-- Witness for C3 at a concrete read-only tomogram: the PUT behaves as the
GET and returns the stored chunk. -/
theorem readonly_put_reads_witness :
    handleTomogram Method.PUT runRO ("VoxelSpacing10.0/test.zarr/0").toList [] =
      handleTomogram Method.GET runRO ("VoxelSpacing10.0/test.zarr/0").toList [] ∧
    (handleTomogram Method.PUT runRO ("VoxelSpacing10.0/test.zarr/0").toList []).1 =
      { status := 200, body := some [⟨7, by norm_num⟩] } := by
  have h := readonly_put_reads runRO ("VoxelSpacing10.0/test.zarr/0").toList []
    (PyFloat.finite 10) ("test").toList ("0").toList (by decide)
    { get_tomogram := fun _ => some tomoRO } rfl tomoRO rfl rfl
  exact ⟨h.1, h.2.2.1 [⟨7, by norm_num⟩] (by decide)⟩

/-! ## Claim C4 -/

/-- Claim C4.  For the segmentation path segment
`10.0_alice_s1_membrane-multilabel.zarr` the handler resolves
`multilabel = true` and canonical name `membrane`, and a PUT whose body
decodes invokes the persistence collaborator with exactly those values,
`userId = alice`, `sessionId = s1` and `voxelSize = 10.0`. -/
theorem seg_multilabel_put_invocation (run : Run) (blob : List Byte)
    (shape : List ℤ) (data : List Byte)
    (hd : decodeFrame blob = some (shape, data)) :
    handleSegmentation Method.PUT run
        ("10.0_alice_s1_membrane-multilabel.zarr/0").toList blob =
      some ((if run.seg.write_ok ("alice").toList ("membrane").toList ("s1").toList
                (PyFloat.finite 10) true shape data
             then { status := 200, body := none } else resp500),
            [Effect.writeSegmentation ("alice").toList ("membrane").toList ("s1").toList
              (PyFloat.finite 10) true shape data]) := by
  have hp : parseSegPath ("10.0_alice_s1_membrane-multilabel.zarr/0").toList =
      SegParse.ok ⟨PyFloat.finite 10, ("alice").toList, ("s1").toList,
        ("membrane-multilabel").toList, ("0").toList⟩ := by decide
  unfold handleSegmentation
  rw [hp]
  dsimp only
  rw [if_pos rfl, hd]
  rw [show containsSub ("multilabel").toList ("membrane-multilabel").toList = true from by decide,
    show replaceAll ("-multilabel").toList [] ("membrane-multilabel").toList =
      ("membrane").toList from by decide]

/-- Witness for C4: a decodable concrete body (the encoding of an empty
`(0, 0, 0)` array) is forwarded to the persistence collaborator with
`multilabel = true` and name `membrane`. -/
theorem seg_multilabel_put_invocation_witness :
    handleSegmentation Method.PUT runAllOk
        ("10.0_alice_s1_membrane-multilabel.zarr/0").toList (encodeFrame3 0 0 0 []) =
      some ({ status := 200, body := none },
        [Effect.writeSegmentation ("alice").toList ("membrane").toList ("s1").toList
          (PyFloat.finite 10) true [0, 0, 0] []]) := by
  have h := seg_multilabel_put_invocation runAllOk (encodeFrame3 0 0 0 []) [0, 0, 0] []
    (by decide)
  rw [h]
  rfl

/-! ## Claim C6 -/

/-- Claim C6.  A Picks request of any method whose filename segment does not
split on `_` into exactly three fields is answered 404 with no backing-store
call (no `new_picks`, `get_picks` or `store`). -/
theorem picks_bad_filename_404 (run : Run) (m : Method) (sub : List Char)
    (body : List Byte) (p0 : List Char) (ps : List (List Char))
    (hs : pySplit '/' sub = p0 :: ps)
    (hn : (pySplit '_' p0).length ≠ 3) :
    handlePicks m run sub body = (resp404, []) := by
  have hparse : parsePicksPath sub = none := by
    unfold parsePicksPath
    rw [hs]
    dsimp only
    rcases h2 : pySplit '_' p0 with _ | ⟨a, _ | ⟨b, _ | ⟨c, _ | ⟨d, ds⟩⟩⟩⟩
    · rfl
    · rfl
    · rfl
    · exact absurd (by rw [h2]; rfl) hn
    · rfl
  unfold handlePicks
  rw [hparse]

/-- Witness for C6: the filename `alice.json` (one field) is answered 404
with an empty effect trace. -/
theorem picks_bad_filename_404_witness :
    handlePicks Method.PUT runAllOk ("alice.json").toList [] = (resp404, []) :=
  picks_bad_filename_404 runAllOk Method.PUT ("alice.json").toList []
    ("alice.json").toList [] (by decide) (by decide)

/-! ## Claim C7 -/

/-- Claim C7.  A request whose path has at least three segments but whose
first segment is not in the run catalog is answered 404, for every method,
with no handler invoked and no effect issued. -/
theorem unknown_run_404 (root : List Char → Option Run) (m : Method)
    (path : List Char) (body : List Byte) (a b c : List Char) (rs : List (List Char))
    (hp : pySplit '/' path = a :: b :: c :: rs)
    (hr : root a = none) :
    handleRequest root m path body = (resp404, []) := by
  unfold handleRequest
  rw [hp]
  dsimp only
  rw [hr]

/-- Witness for C7 against an empty run catalog. -/
theorem unknown_run_404_witness :
    handleRequest (fun _ => none) Method.GET ("r/Tomograms/x").toList [] = (resp404, []) :=
  unknown_run_404 (fun _ => none) Method.GET ("r/Tomograms/x").toList []
    ("r").toList ("Tomograms").toList ("x").toList [] (by decide) rfl

/-! ## Claim C10 -/

/-- Claim C10.  The picks handler consults only the first sub-path segment:
requests of the same method, body and store whose sub-paths share the first
`/`-separated segment get identical responses and identical effect traces. -/
theorem picks_first_segment_only (run : Run) (m : Method) (body : List Byte)
    (s t : List Char)
    (h : (pySplit '/' s).head? = (pySplit '/' t).head?) :
    handlePicks m run s body = handlePicks m run t body := by
  have hparse : parsePicksPath s = parsePicksPath t := by
    unfold parsePicksPath
    rcases h1 : pySplit '/' s with _ | ⟨a, as⟩ <;>
      rcases h2 : pySplit '/' t with _ | ⟨b, bs⟩ <;>
      rw [h1, h2] at h <;> simp_all
  unfold handlePicks
  rw [hparse]

/-- Witness for C10: trailing segments after the picks filename are ignored. -/
theorem picks_first_segment_only_witness :
    handlePicks Method.GET runAllOk ("u_s_o.json").toList [] =
      handlePicks Method.GET runAllOk ("u_s_o.json/extra/segments").toList [] :=
  picks_first_segment_only runAllOk Method.GET [] ("u_s_o.json").toList
    ("u_s_o.json/extra/segments").toList (by decide)

/-! ## Claim C9 -/

/-- Counterexample to claim C9 as stated: for the segment `a.zarrb`, which
contains `.zarr` only in its interior, the claim requires the tomogram type
passed to the lookup to be the unchanged `a.zarrb`; the handler instead
passes `ab`, because `str.replace(".zarr", "")` removes every occurrence,
not only a suffix. -/
theorem zarr_interior_replace_cex :
    (handleTomogram Method.GET runVsOnly ("VoxelSpacing10.0/a.zarrb/0").toList []).2 =
      [Effect.getVoxelSpacing (PyFloat.finite 10), Effect.getTomogram ("ab").toList] ∧
    stripSuffixSpec (".zarr").toList ("a.zarrb").toList = ("a.zarrb").toList ∧
    ("ab").toList ≠ ("a.zarrb").toList := by
  exact ⟨by decide, by decide, by decide⟩

/-- Claim C9 as amended.  The tomogram type passed to the voxel-spacing's
tomogram lookup equals the second sub-path segment with every occurrence of
the substring `.zarr` removed (Python `str.replace`), not merely a stripped
suffix: whenever the parse reaches the lookup, the second effect in the
trace is `getTomogram` of exactly that string. -/
theorem tomo_type_replace_all (m : Method) (run : Run) (sub : List Char)
    (body : List Byte) (p0 p1 : List Char) (rest : List (List Char))
    (hs : pySplit '/' sub = p0 :: p1 :: rest)
    (v : PyFloat) (hv : pyFloat? (replaceAll ("VoxelSpacing").toList [] p0) = some v)
    (vs : VoxelSpacing) (hvs : run.get_voxel_spacing v = some vs) :
    (handleTomogram m run sub body).2.get? 1 =
      some (Effect.getTomogram (replaceAll (".zarr").toList [] p1)) := by
  have hp : parseTomoPath sub =
      some (v, replaceAll (".zarr").toList [] p1, pyJoin '/' rest) := by
    unfold parseTomoPath
    rw [hs]
    dsimp only
    rw [hv]
  unfold handleTomogram
  rw [hp]
  dsimp only
  rw [hvs]
  dsimp only
  cases ht : vs.get_tomogram (replaceAll (".zarr").toList [] p1) with
  | none => rfl
  | some t =>
    dsimp only
    by_cases hc : m = Method.PUT ∧ t.read_only = false
    · rw [if_pos hc]
      rfl
    · rw [if_neg hc]
      cases t.zarr (pyJoin '/' rest) <;> rfl

/-- Witness for the amended C9 at the interior-occurrence segment `a.zarrb`. -/
theorem tomo_type_replace_all_witness :
    (handleTomogram Method.GET runVsOnly ("VoxelSpacing10.0/a.zarrb/0").toList []).2.get? 1 =
      some (Effect.getTomogram (replaceAll (".zarr").toList [] ("a.zarrb").toList)) :=
  tomo_type_replace_all Method.GET runVsOnly ("VoxelSpacing10.0/a.zarrb/0").toList []
    ("VoxelSpacing10.0").toList ("a.zarrb").toList [("0").toList] (by decide)
    (PyFloat.finite 10) (by decide) { get_tomogram := fun _ => none } rfl

/-! ## Split and join lemmas

The router hands each kind handler `"/".join(path_parts[2:])`, which the
handler re-splits; these lemmas recover the original segments. -/

lemma pySplit_ne_nil (sep : Char) (s : List Char) : pySplit sep s ≠ [] := by
  induction s with
  | nil => simp [pySplit]
  | cons c cs ih =>
    simp only [pySplit]
    split
    · simp
    · cases h : pySplit sep cs with
      | nil => simp
      | cons t ts => simp

lemma mem_pySplit_not_mem (sep : Char) (s : List Char) :
    ∀ x ∈ pySplit sep s, sep ∉ x := by
  induction s with
  | nil =>
    intro x hx
    simp [pySplit] at hx
    subst hx
    simp
  | cons c cs ih =>
    intro x hx
    by_cases hc : c = sep
    · rw [pySplit, if_pos hc] at hx
      rcases List.mem_cons.mp hx with rfl | hx'
      · simp
      · exact ih x hx'
    · rw [pySplit, if_neg hc] at hx
      cases h : pySplit sep cs with
      | nil => exact absurd h (pySplit_ne_nil sep cs)
      | cons t ts =>
        rw [h] at hx
        rcases List.mem_cons.mp hx with rfl | hx'
        · intro hmem
          rcases List.mem_cons.mp hmem with hsc | hst
          · exact hc hsc.symm
          · exact ih t (by rw [h]; exact List.mem_cons_self t ts) hst
        · exact ih x (by rw [h]; exact List.mem_cons_of_mem t hx')

lemma pySplit_no_sep (sep : Char) (x : List Char) (hx : sep ∉ x) :
    pySplit sep x = [x] := by
  induction x with
  | nil => rfl
  | cons c cs ih =>
    have hc : ¬ c = sep := fun h => hx (by rw [h]; exact List.mem_cons_self sep cs)
    have hcs : sep ∉ cs := fun h => hx (List.mem_cons_of_mem c h)
    rw [pySplit, if_neg hc, ih hcs]

lemma pySplit_append_sep (sep : Char) (x t : List Char) (hx : sep ∉ x) :
    pySplit sep (x ++ sep :: t) = x :: pySplit sep t := by
  induction x with
  | nil => simp [pySplit]
  | cons c cs ih =>
    have hc : ¬ c = sep := fun h => hx (by rw [h]; exact List.mem_cons_self sep cs)
    have hcs : sep ∉ cs := fun h => hx (List.mem_cons_of_mem c h)
    rw [List.cons_append, pySplit, if_neg hc, ih hcs]

lemma pySplit_pyJoin (sep : Char) (ls : List (List Char)) (hne : ls ≠ [])
    (hall : ∀ x ∈ ls, sep ∉ x) :
    pySplit sep (pyJoin sep ls) = ls := by
  induction ls with
  | nil => exact absurd rfl hne
  | cons x xs ih =>
    cases xs with
    | nil => exact pySplit_no_sep sep x (hall x (List.mem_cons_self x []))
    | cons y ys =>
      rw [show pyJoin sep (x :: y :: ys) = x ++ sep :: pyJoin sep (y :: ys) from rfl,
        pySplit_append_sep sep x _ (hall x (List.mem_cons_self x _)),
        ih (by simp) (fun z hz => hall z (List.mem_cons_of_mem x hz))]

/-! ## Claim C5 -/

/-- Claim C5.  A segmentation request of any method whose filename splits
into at least four underscore fields but whose first field does not parse as
a float raises out of the handler, and the router's catch-all answers 500 —
asymmetric with the tomogram handler, whose voxel-spacing parse failure is
caught and answered 404. -/
theorem seg_float_error_500 :
    (∀ (root : List Char → Option Run) (m : Method) (path : List Char)
        (body : List Byte) (rn r0 : List Char) (rs : List (List Char)) (run : Run)
        (f0 f1 f2 f3 : List Char) (fs : List (List Char)),
      pySplit '/' path = rn :: ("Segmentations").toList :: r0 :: rs →
      root rn = some run →
      pySplit '_' (replaceAll (".zarr").toList [] r0) = f0 :: f1 :: f2 :: f3 :: fs →
      pyFloat? f0 = none →
      handleRequest root m path body = (resp500, [])) ∧
    (∀ (m : Method) (run : Run) (sub : List Char) (body : List Byte)
        (p0 p1 : List Char) (rest : List (List Char)),
      pySplit '/' sub = p0 :: p1 :: rest →
      pyFloat? (replaceAll ("VoxelSpacing").toList [] p0) = none →
      handleTomogram m run sub body = (resp404, [])) := by
  constructor
  · intro root m path body rn r0 rs run f0 f1 f2 f3 fs hp hroot hf hv
    have hsub : pySplit '/' (pyJoin '/' (r0 :: rs)) = r0 :: rs := by
      apply pySplit_pyJoin '/' (r0 :: rs) (by simp)
      intro x hx
      exact mem_pySplit_not_mem '/' path x
        (by rw [hp]; exact List.mem_cons_of_mem _ (List.mem_cons_of_mem _ hx))
    have hparse : parseSegPath (pyJoin '/' (r0 :: rs)) = SegParse.exn := by
      unfold parseSegPath
      rw [hsub]
      dsimp only
      rw [hf]
      dsimp only
      rw [hv]
    unfold handleRequest
    rw [hp]
    dsimp only
    rw [hroot]
    dsimp only
    rw [if_neg (by decide), if_neg (by decide), if_pos rfl]
    unfold routeSeg handleSegmentation
    rw [hparse]
  · intro m run sub body p0 p1 rest hs hv
    have hparse : parseTomoPath sub = none := by
      unfold parseTomoPath
      rw [hs]
      dsimp only
      rw [hv]
    unfold handleTomogram
    rw [hparse]

/-- Witness for C5: `abc` parses as neither float — the segmentation route
returns 500 while the tomogram route returns 404. -/
theorem seg_float_error_500_witness :
    handleRequest (fun _ => some runAllOk) Method.GET
        ("r/Segmentations/abc_u_s_n.zarr/0").toList [] = (resp500, []) ∧
    handleTomogram Method.GET runAllOk ("VoxelSpacingabc/t.zarr/0").toList [] =
      (resp404, []) :=
  ⟨seg_float_error_500.1 (fun _ => some runAllOk) Method.GET
      ("r/Segmentations/abc_u_s_n.zarr/0").toList [] ("r").toList
      ("abc_u_s_n.zarr").toList [("0").toList] runAllOk
      ("abc").toList ("u").toList ("s").toList ("n").toList [] (by decide) rfl
      (by decide) (by decide),
   seg_float_error_500.2 Method.GET runAllOk ("VoxelSpacingabc/t.zarr/0").toList []
      ("VoxelSpacingabc").toList ("t.zarr").toList [("0").toList] (by decide) (by decide)⟩

/-! ## Claim C8 -/

lemma tomo_head_get (run : Run) (sub : List Char) (body : List Byte) :
    (handleTomogram Method.HEAD run sub body).1.body = none ∧
    (handleTomogram Method.HEAD run sub body).1.status =
      (handleTomogram Method.GET run sub body).1.status := by
  unfold handleTomogram
  cases hp : parseTomoPath sub with
  | none => exact ⟨rfl, rfl⟩
  | some p =>
    obtain ⟨v, ttype, key⟩ := p
    dsimp only
    cases hvs : run.get_voxel_spacing v with
    | none => exact ⟨rfl, rfl⟩
    | some vs =>
      dsimp only
      cases ht : vs.get_tomogram ttype with
      | none => exact ⟨rfl, rfl⟩
      | some t =>
        dsimp only
        rw [if_neg (by simp : ¬ (Method.HEAD = Method.PUT ∧ t.read_only = false)),
          if_neg (by simp : ¬ (Method.GET = Method.PUT ∧ t.read_only = false))]
        cases t.zarr key <;> exact ⟨rfl, rfl⟩

lemma picks_head_get (run : Run) (sub : List Char) (body : List Byte) :
    (handlePicks Method.HEAD run sub body).1.body = none ∧
    (handlePicks Method.HEAD run sub body).1.status =
      (handlePicks Method.GET run sub body).1.status := by
  unfold handlePicks
  cases hp : parsePicksPath sub with
  | none => exact ⟨rfl, rfl⟩
  | some p =>
    obtain ⟨u, s, o⟩ := p
    dsimp only
    cases run.picks.get_picks o u s <;> exact ⟨rfl, rfl⟩

lemma seg_head_get (run : Run) (sub : List Char) (body : List Byte) :
    (routeSeg Method.HEAD run sub body).1.body = none ∧
    (routeSeg Method.HEAD run sub body).1.status =
      (routeSeg Method.GET run sub body).1.status := by
  unfold routeSeg handleSegmentation
  cases hp : parseSegPath sub with
  | notFound => exact ⟨rfl, rfl⟩
  | exn => exact ⟨rfl, rfl⟩
  | ok p =>
    dsimp only
    cases hg : run.seg.get_segmentations p.v (replaceAll ("-multilabel").toList [] p.name)
        p.userId p.sessionId (containsSub ("multilabel").toList p.name) with
    | nil => exact ⟨rfl, rfl⟩
    | cons st sts =>
      dsimp only
      cases st p.key <;> exact ⟨rfl, rfl⟩

/-- Claim C8.  For every path, body and store state, a HEAD request carries
no body and the same status code the equivalent GET produces, across all
three kinds and the router itself. -/
theorem head_matches_get (root : List Char → Option Run) (path : List Char)
    (body : List Byte) :
    (handleRequest root Method.HEAD path body).1.body = none ∧
    (handleRequest root Method.HEAD path body).1.status =
      (handleRequest root Method.GET path body).1.status := by
  unfold handleRequest
  rcases hsp : pySplit '/' path with _ | ⟨rn, _ | ⟨dt, _ | ⟨r0, rs⟩⟩⟩
  · exact ⟨rfl, rfl⟩
  · exact ⟨rfl, rfl⟩
  · exact ⟨rfl, rfl⟩
  · dsimp only
    cases hr : root rn with
    | none => exact ⟨rfl, rfl⟩
    | some run =>
      dsimp only
      by_cases h1 : dt = ("Tomograms").toList
      · rw [if_pos h1, if_pos h1]
        exact tomo_head_get run _ body
      · rw [if_neg h1, if_neg h1]
        by_cases h2 : dt = ("Picks").toList
        · rw [if_pos h2, if_pos h2]
          exact picks_head_get run _ body
        · rw [if_neg h2, if_neg h2]
          by_cases h3 : dt = ("Segmentations").toList
          · rw [if_pos h3, if_pos h3]
            exact seg_head_get run _ body
          · rw [if_neg h3, if_neg h3]
            exact ⟨rfl, rfl⟩

end Copick
